import Mathlib

/-!
Verification of the card-data enrichment and caching subsystem of the
tcg-collection-manager repository (TypeScript), as a shallow embedding.

Sources embedded here:
* the Scryfall provider service with its in-memory freshness cache
  (class ScryfallService in the cards module: searchCards, getCardById with
  cache, getCardByName, isCacheValid, cleanCache, getCacheStats);
* the per-card enrichment step shared by CardsService.getCollectionCards and
  CardsService.getCardById, and the batch map over a collection's rows;
* CardsService.addCard (provider lookup before the INSERT);
* the valuation sums of CollectionsService.getUserCollections (backend) and
  the collectionStats memo of CollectionDetails.tsx (frontend), together with
  the price cell of CardsTable.tsx;
* the deck-list import resolver (modelled from the spec, see below).

Modelling conventions: price strings such as "2.50" are modelled by their
numeric value in ℚ, with absent (null / undefined) prices as none; both the
JavaScript logical-or chain on such values and the nullish-coalescing chain
coincide under this abstraction, since a present price string is non-empty.
The single asynchronous provider round-trip of each operation is modelled by
an explicit outcome parameter (success / not-found / other failure), so a
theorem quantified over outcomes covers every completion order and every
failure pattern of the concurrent fan-out. Date.now() is an explicit integer
parameter. The mutable ScryfallService singleton is explicit state.
-/

/-- AppError from the backend types module: an error with a message and an
HTTP status code (404 marks not-found, 500 marks provider-unavailable). -/
structure AppError where
  message : String
  statusCode : Nat
deriving DecidableEq, Repr

/-- Price fields of ScryfallCard.prices (primary currency usd, non-foil and
foil), each optionally absent. -/
structure ScryfallPrices where
  usd : Option ℚ
  usd_foil : Option ℚ
deriving DecidableEq, Repr

/-- ScryfallCard from the backend types module, restricted to the fields the
enrichment, valuation and addCard paths read. -/
structure ScryfallCard where
  id : String
  name : String
  set : String
  set_name : String
  rarity : String
  prices : Option ScryfallPrices
deriving DecidableEq, Repr

/-- ScryfallSearchResponse from the backend types module. -/
structure ScryfallSearchResponse where
  total_cards : Nat
  has_more : Bool
  data : List ScryfallCard
deriving DecidableEq, Repr

/-- Card (a local card row) from the backend types module. -/
structure Card where
  id : String
  collection_id : String
  scryfall_id : String
  owner_name : String
  current_deck : Option String
  is_borrowed : Bool
  quantity : Nat
  set_code : Option String
  set_name : Option String
  added_at : Int
deriving DecidableEq, Repr

/-- CardWithDetails: a local card row together with its Scryfall data, null
when enrichment failed. -/
structure CardWithDetails extends Card where
  scryfall_data : Option ScryfallCard
deriving DecidableEq, Repr

/-- Outcome of the single outbound fetch of a by-id or by-exact-name call:
the provider answered with a card, answered 404, or anything else went wrong
(non-success status, transport error, malformed body). -/
inductive FetchOutcome where
  | success (data : ScryfallCard)
  | notFound
  | unavailable
deriving DecidableEq, Repr

/-- Outcome of the single outbound fetch of a search call. -/
inductive SearchOutcome where
  | success (resp : ScryfallSearchResponse)
  | notFound
  | unavailable
deriving DecidableEq, Repr

/-- ScryfallService.searchCards: a 404 becomes an explicitly empty result
list, any other failure becomes an AppError with status 500. -/
def searchCards : SearchOutcome → Except AppError ScryfallSearchResponse
  | .success r => .ok r
  | .notFound => .ok { total_cards := 0, has_more := false, data := [] }
  | .unavailable => .error ⟨"Erro ao buscar cartas no Scryfall", 500⟩

/-- ScryfallService.getCardByName: a 404 becomes an AppError with status 404
(rethrown unchanged past the catch), any other failure an AppError 500. -/
def getCardByName : FetchOutcome → Except AppError ScryfallCard
  | .success d => .ok d
  | .notFound => .error ⟨"Carta não encontrada no Scryfall", 404⟩
  | .unavailable => .error ⟨"Erro ao buscar carta no Scryfall", 500⟩

/-- Cache entry of the ScryfallService: card data plus the Date.now() at
which it was stored. -/
structure CacheEntry where
  data : ScryfallCard
  timestamp : Int
deriving DecidableEq, Repr

/-- Mutable state of the ScryfallService singleton: the cache Map in
insertion order, and the two process-lifetime counters. -/
structure ScryfallState where
  cache : List (String × CacheEntry)
  cacheHits : Nat
  cacheMisses : Nat
deriving DecidableEq, Repr

/-- cacheTTL of the ScryfallService: one hour in milliseconds. -/
def cacheTTL : Int := 60 * 60 * 1000

/-- ScryfallService.isCacheValid, with the TTL and Date.now() explicit. -/
def isCacheValid (ttl now : Int) (e : CacheEntry) : Bool :=
  decide (now - e.timestamp < ttl)

/-- Map.set of the cache: overwrite in place if the key exists, else append. -/
def mapSet : List (String × CacheEntry) → String → CacheEntry → List (String × CacheEntry)
  | [], k, v => [(k, v)]
  | (k', v') :: rest, k, v =>
    if k' = k then (k, v) :: rest else (k', v') :: mapSet rest k v

/-- ScryfallService.cleanCache: delete every entry whose age has reached the
TTL, keep the rest. -/
def cleanCache (ttl now : Int) (cache : List (String × CacheEntry)) :
    List (String × CacheEntry) :=
  cache.filter (fun p => !(decide (now - p.2.timestamp ≥ ttl)))

/-- Miss path of ScryfallService.getCardById: count the miss, then fetch; on
success store the entry and, when the miss counter has reached a multiple of
100, sweep; on a 404 raise AppError 404; on any other failure AppError 500. -/
def getCardByIdMiss (ttl : Int) (s : ScryfallState) (id : String) (now : Int) :
    FetchOutcome → Except AppError ScryfallCard × ScryfallState
  | .success d =>
    (.ok d,
      { cache :=
          if (s.cacheMisses + 1) % 100 = 0 then
            cleanCache ttl now (mapSet s.cache id ⟨d, now⟩)
          else
            mapSet s.cache id ⟨d, now⟩
        cacheHits := s.cacheHits
        cacheMisses := s.cacheMisses + 1 })
  | .notFound =>
    (.error ⟨"Carta não encontrada no Scryfall", 404⟩,
      { s with cacheMisses := s.cacheMisses + 1 })
  | .unavailable =>
    (.error ⟨"Erro ao buscar carta no Scryfall", 500⟩,
      { s with cacheMisses := s.cacheMisses + 1 })

/-- ScryfallService.getCardById as a state transition: a cached valid entry
is a hit returning the stored data; otherwise the miss path runs. -/
def getCardByIdStep (ttl : Int) (s : ScryfallState) (id : String) (now : Int)
    (outcome : FetchOutcome) : Except AppError ScryfallCard × ScryfallState :=
  match s.cache.lookup id with
  | some entry =>
    if isCacheValid ttl now entry then
      (.ok entry.data, { s with cacheHits := s.cacheHits + 1 })
    else
      getCardByIdMiss ttl s id now outcome
  | none => getCardByIdMiss ttl s id now outcome

/-- ScryfallService.getCardById with the service's fixed one-hour TTL. -/
def scryfallGetCardById (s : ScryfallState) (id : String) (now : Int)
    (outcome : FetchOutcome) : Except AppError ScryfallCard × ScryfallState :=
  getCardByIdStep cacheTTL s id now outcome

/-- Return shape of ScryfallService.getCacheStats; the two-decimal string
formatting of the hit rate is modelled by the exact rational. -/
structure CacheStats where
  hits : Nat
  misses : Nat
  size : Nat
  hitRate : ℚ
deriving DecidableEq, Repr

/-- ScryfallService.getCacheStats. -/
def getCacheStats (s : ScryfallState) : CacheStats :=
  { hits := s.cacheHits
    misses := s.cacheMisses
    size := s.cache.length
    hitRate :=
      if 0 < s.cacheHits + s.cacheMisses then
        (s.cacheHits : ℚ) / (s.cacheHits + s.cacheMisses) * 100
      else 0 }

/-- Iterated getCardById calls, one per (id, now, outcome) request. -/
def runRequests (ttl : Int) : List (String × Int × FetchOutcome) → ScryfallState → ScryfallState
  | [], s => s
  | (id, now, o) :: rest, s =>
    runRequests ttl rest (getCardByIdStep ttl s id now o).2

/-- Per-card enrichment step shared by CardsService.getCollectionCards and
CardsService.getCardById: spread the row and attach the Scryfall data, or
attach null when the fetch threw (the catch branch). -/
def enrichCard (res : Except AppError ScryfallCard) (card : Card) : CardWithDetails :=
  match res with
  | .ok d => { toCard := card, scryfall_data := some d }
  | .error _ => { toCard := card, scryfall_data := none }

/-- Positional batch enrichment of CardsService.getCollectionCards:
Promise.all over the mapped rows, the fetch outcome of the call issued for
position i given by the oracle at i (covering any completion order and any
per-item failure pattern). -/
def enrichAll (fetch : Nat → Except AppError ScryfallCard) :
    Nat → List Card → List CardWithDetails
  | _, [] => []
  | i, c :: cs => enrichCard (fetch i) c :: enrichAll fetch (i + 1) cs

/-- CardsService.getCollectionCards, after the rows are read from the
database: batch enrichment starting at position 0. -/
def getCollectionCards (fetch : Nat → Except AppError ScryfallCard)
    (rows : List Card) : List CardWithDetails :=
  enrichAll fetch 0 rows

/-- CardsService.getCardById: 404 when the row is absent, otherwise the
enrichment step (whose provider failure is caught, never rethrown). -/
def cardsServiceGetCardById (dbRow : Option Card)
    (fetch : Except AppError ScryfallCard) : Except AppError CardWithDetails :=
  match dbRow with
  | none => .error ⟨"Carta não encontrada", 404⟩
  | some card => .ok (enrichCard fetch card)

/-- Unit price of a fetched card, as computed by the backend valuation and
the frontend: prices?.usd, else prices?.usd_foil, else 0. -/
def priceOf (d : ScryfallCard) : ℚ :=
  match d.prices with
  | none => 0
  | some p =>
    match p.usd with
    | some v => v
    | none =>
      match p.usd_foil with
      | some v => v
      | none => 0

/-- JavaScript numeric `x || d` on a number that may be 0. -/
def jsOr (n d : Nat) : Nat := if n = 0 then d else n

/-- Total-value accumulation of CollectionsService.getUserCollections: per
row, on a successful fetch add price times quantity, on a failed fetch skip
the card (the catch branch adds nothing). -/
def getUserCollectionsTotalValue (fetch : Nat → Except AppError ScryfallCard) :
    Nat → List Card → ℚ
  | _, [] => 0
  | i, c :: cs =>
    (match fetch i with
     | .ok d => priceOf d * (c.quantity : ℚ)
     | .error _ => 0) + getUserCollectionsTotalValue fetch (i + 1) cs

/-- Unit price of an enriched card, as read by the collectionStats memo of
CollectionDetails.tsx: scryfall_data?.prices?.usd, else usd_foil, else 0. -/
def cardUnitPrice (card : CardWithDetails) : ℚ :=
  match card.scryfall_data with
  | none => 0
  | some d => priceOf d

/-- totalValue of the collectionStats memo of CollectionDetails.tsx: a
reduce over the cards of unit price times (quantity || 1). -/
def collectionStatsTotalValue (cards : List CardWithDetails) : ℚ :=
  cards.foldl (fun sum card => sum + cardUnitPrice card * (jsOr card.quantity 1 : ℚ)) 0

/-- Price cell of CardsTable.tsx: prices?.usd, nullish-coalesced with
usd_foil; absent when neither is present (rendered as a dash). -/
def cardsTableDisplayPrice (cw : CardWithDetails) : Option ℚ :=
  match cw.scryfall_data with
  | none => none
  | some d =>
    match d.prices with
    | none => none
    | some p =>
      match p.usd with
      | some v => some v
      | none => p.usd_foil

/-- Sort key of the price column of CardsTable.tsx: prices?.usd, else
usd_foil, else 0. -/
def cardsTableSortValue (cw : CardWithDetails) : ℚ :=
  match cw.scryfall_data with
  | none => 0
  | some d => priceOf d

/-- Specification-side unit price, written from the words of the spec for
the refinement comparison: prefer the primary-currency non-foil price; if
absent, fall back to the primary-currency foil price; if both absent, 0. -/
def unitPriceSpec (provider : Option ScryfallCard) : ℚ :=
  match provider with
  | none => 0
  | some d =>
    match d.prices.bind (fun p => p.usd) with
    | some v => v
    | none =>
      match d.prices.bind (fun p => p.usd_foil) with
      | some v => v
      | none => 0

/-- Specification-side collection total, written from the words of the spec
for the refinement comparison: the sum over the cards of unit price times
the local quantity. -/
def specTotalValue (cards : List CardWithDetails) : ℚ :=
  (cards.map (fun c => unitPriceSpec c.scryfall_data * (c.quantity : ℚ))).sum

/-- Request shape of CardsService.addCard. -/
structure AddCardRequest where
  scryfall_id : String
  owner_name : String
  current_deck : Option String
  is_borrowed : Option Bool
  quantity : Option Nat
  set_code : Option String
  set_name : Option String
deriving DecidableEq, Repr

/-- JavaScript `a || b` on an optional string (the empty string is falsy). -/
def jsStrOr (a b : Option String) : Option String :=
  match a with
  | some s => if s = "" then b else some s
  | none => b

/-- JavaScript `a || d` on an optional number (0 is falsy). -/
def jsNatOr (a : Option Nat) (d : Nat) : Nat :=
  match a with
  | some q => if q = 0 then d else q
  | none => d

/-- JavaScript `s || null` on a string. -/
def strOrNull (s : String) : Option String :=
  if s = "" then none else some s

/-- Row built by the INSERT of CardsService.addCard, including the
set-code/set-name fallbacks to the fetched Scryfall data. -/
def mkInsertedCard (newId collectionId : String) (now : Int)
    (req : AddCardRequest) (d : ScryfallCard) : Card :=
  { id := newId
    collection_id := collectionId
    scryfall_id := req.scryfall_id
    owner_name := req.owner_name
    current_deck := jsStrOr req.current_deck none
    is_borrowed := req.is_borrowed.getD false
    quantity := jsNatOr req.quantity 1
    set_code := jsStrOr req.set_code (strOrNull d.set)
    set_name := jsStrOr req.set_name (strOrNull d.set_name)
    added_at := now }

/-- CardsService.addCard: verify collection ownership, verify the card in
Scryfall, and only then insert; an error from either check propagates and
leaves the stored rows unchanged. -/
def addCard (ownership : Except AppError Unit)
    (fetch : Except AppError ScryfallCard) (db : List Card)
    (collectionId : String) (req : AddCardRequest) (newId : String)
    (now : Int) : Except AppError CardWithDetails × List Card :=
  match ownership with
  | .error e => (.error e, db)
  | .ok _ =>
    match fetch with
    | .error e => (.error e, db)
    | .ok d =>
      (.ok { toCard := mkInsertedCard newId collectionId now req d,
             scryfall_data := some d },
       db ++ [mkInsertedCard newId collectionId now req d])

/-- Entry of a deck-list import request: a card name and a quantity. -/
structure ImportEntry where
  name : String
  quantity : Nat
deriving DecidableEq, Repr

/-- Failure item of a deck-list import: the entry's name and a reason. -/
structure ImportFailure where
  name : String
  reason : String
deriving DecidableEq, Repr

/-- Modelled from the spec: the backend deck-list import handler (the
importDeckList controller behind POST /:collectionId/cards/import) is not
among the source files; only its route declaration and its frontend caller
are. Per the spec, a resolved entry yields a new local card record with the
given owner, the entry's quantity, and the resolved provider card's id. -/
def importRecord (collectionId owner : String) (e : ImportEntry)
    (d : ScryfallCard) : Card :=
  { id := ""
    collection_id := collectionId
    scryfall_id := d.id
    owner_name := owner
    current_deck := none
    is_borrowed := false
    quantity := e.quantity
    set_code := some d.set
    set_name := some d.set_name
    added_at := 0 }

/-- Modelled from the spec: loop of the missing importDeckList handler. For
each entry independently, call getByExactName (the outcome for the call of
position i given by the oracle at i); on success append the new record to
imported, on any failure append the name and reason to failed and continue
with the next entry — the loop itself never raises. -/
def importListGo (lookup : Nat → Except AppError ScryfallCard)
    (collectionId owner : String) :
    Nat → List ImportEntry → List Card × List ImportFailure
  | _, [] => ([], [])
  | i, e :: es =>
    match lookup i with
    | .ok d =>
      ((importRecord collectionId owner e d) ::
        (importListGo lookup collectionId owner (i + 1) es).1,
       (importListGo lookup collectionId owner (i + 1) es).2)
    | .error err =>
      ((importListGo lookup collectionId owner (i + 1) es).1,
       ⟨e.name, err.message⟩ :: (importListGo lookup collectionId owner (i + 1) es).2)

/-- Modelled from the spec: the missing importDeckList handler, processing
the whole entry list from position 0. -/
def importList (lookup : Nat → Except AppError ScryfallCard)
    (entries : List ImportEntry) (collectionId owner : String) :
    List Card × List ImportFailure :=
  importListGo lookup collectionId owner 0 entries

/-- Entries paired with their position, starting at a given index. -/
def idxFrom {α : Type} : Nat → List α → List (Nat × α)
  | _, [] => []
  | i, a :: as => (i, a) :: idxFrom (i + 1) as

/-- Sample provider card with both prices present. -/
def sampleCardData : ScryfallCard :=
  { id := "sc1", name := "Lightning Bolt", set := "lea",
    set_name := "Limited Edition Alpha", rarity := "common",
    prices := some { usd := some 2, usd_foil := some 5 } }

/-- Sample provider card with only a foil price. -/
def sampleFoilOnly : ScryfallCard :=
  { id := "sc2", name := "Counterspell", set := "leb",
    set_name := "Limited Edition Beta", rarity := "common",
    prices := some { usd := none, usd_foil := some 3 } }

/-- Sample local row, quantity 2. -/
def sampleRow : Card :=
  { id := "c1", collection_id := "col1", scryfall_id := "sc1",
    owner_name := "Alice", current_deck := none, is_borrowed := false,
    quantity := 2, set_code := none, set_name := none, added_at := 0 }

/-- Second sample local row, quantity 1. -/
def sampleRow2 : Card :=
  { id := "c2", collection_id := "col1", scryfall_id := "sc2",
    owner_name := "Bob", current_deck := some "Burn", is_borrowed := true,
    quantity := 1, set_code := none, set_name := none, added_at := 5 }

/-- Third sample local row, quantity 3. -/
def sampleRow3 : Card :=
  { id := "c3", collection_id := "col1", scryfall_id := "sc3",
    owner_name := "Alice", current_deck := none, is_borrowed := false,
    quantity := 3, set_code := none, set_name := none, added_at := 9 }

/-- Fetch oracle failing at position 0 and succeeding elsewhere. -/
def sampleFetch : Nat → Except AppError ScryfallCard :=
  fun i => if i = 0 then .error ⟨"Erro ao buscar carta no Scryfall", 500⟩
           else .ok sampleCardData

/-- Fetch oracle: both prices at 0, foil-only at 1, failure elsewhere. -/
def sampleFetch4 : Nat → Except AppError ScryfallCard :=
  fun i =>
    match i with
    | 0 => .ok sampleCardData
    | 1 => .ok sampleFoilOnly
    | _ => .error ⟨"Erro ao buscar carta no Scryfall", 500⟩

/-- Cache state holding one entry for id A stored at time 0. -/
def cacheStateA : ScryfallState :=
  { cache := [("A", ⟨sampleCardData, 0⟩)], cacheHits := 0, cacheMisses := 0 }

/-- Cache state holding one entry for id B stored at time 0, with 99 misses
already counted. -/
def cacheStateC : ScryfallState :=
  { cache := [("B", ⟨sampleCardData, 0⟩)], cacheHits := 0, cacheMisses := 99 }

/-- Cache state with no entries. -/
def emptyState : ScryfallState :=
  { cache := [], cacheHits := 0, cacheMisses := 0 }

theorem enrichCard_toCard (res : Except AppError ScryfallCard) (card : Card) :
    (enrichCard res card).toCard = card := by
  cases res <;> rfl

theorem enrichCard_quantity (res : Except AppError ScryfallCard) (card : Card) :
    (enrichCard res card).quantity = card.quantity := by
  cases res <;> rfl

theorem enrichAll_length (fetch : Nat → Except AppError ScryfallCard)
    (j : Nat) (rows : List Card) :
    (enrichAll fetch j rows).length = rows.length := by
  induction rows generalizing j with
  | nil => rfl
  | cons c cs ih => simp [enrichAll, ih]

theorem enrichAll_getElem? (fetch : Nat → Except AppError ScryfallCard)
    (j : Nat) (rows : List Card) (i : Nat) :
    ((enrichAll fetch j rows)[i]?).map CardWithDetails.toCard = rows[i]? := by
  induction rows generalizing j i with
  | nil => simp [enrichAll]
  | cons c cs ih =>
    cases i with
    | zero => simp [enrichAll, enrichCard_toCard]
    | succ n => simpa [enrichAll] using ih (j + 1) n

/-- C1: single-card enrichment (the per-card step of getCollectionCards and
of getCardById) never propagates a provider error: for every fetch result,
every local field of the enriched card equals the corresponding field of the
input record, on any provider failure the provider-data field is null, and
the service-level getCardById returns normally whenever the local row
exists. -/
theorem c1_enrich_never_propagates
    (res : Except AppError ScryfallCard) (card : Card) :
    (enrichCard res card).toCard = card
    ∧ (∀ err, res = .error err → (enrichCard res card).scryfall_data = none)
    ∧ cardsServiceGetCardById (some card) res = .ok (enrichCard res card) := by
  refine ⟨enrichCard_toCard res card, ?_, rfl⟩
  intro err h
  subst h
  rfl

/-- Witness for C1 at a concrete failing fetch and concrete record. -/
theorem c1_witness :
    (enrichCard (.error ⟨"Erro ao buscar carta no Scryfall", 500⟩) sampleRow).toCard
        = sampleRow
    ∧ (enrichCard (.error ⟨"Erro ao buscar carta no Scryfall", 500⟩) sampleRow).scryfall_data
        = none := by
  obtain ⟨h1, h2, -⟩ :=
    c1_enrich_never_propagates (.error ⟨"Erro ao buscar carta no Scryfall", 500⟩) sampleRow
  exact ⟨h1, h2 _ rfl⟩

/-- C2: batch enrichment returns one output per input row, and the i-th
output's local record equals the i-th input record, for every fetch oracle
(hence for every completion order and every per-item failure pattern). -/
theorem c2_enrichAll_order_preserving
    (fetch : Nat → Except AppError ScryfallCard) (rows : List Card) :
    (getCollectionCards fetch rows).length = rows.length
    ∧ ∀ i : Nat,
        ((getCollectionCards fetch rows)[i]?).map CardWithDetails.toCard = rows[i]? := by
  exact ⟨enrichAll_length fetch 0 rows, fun i => enrichAll_getElem? fetch 0 rows i⟩

theorem getCardByIdMiss_cacheMisses (ttl : Int) (s : ScryfallState) (id : String)
    (now : Int) (o : FetchOutcome) :
    (getCardByIdMiss ttl s id now o).2.cacheMisses = s.cacheMisses + 1 := by
  cases o <;> rfl

theorem step_miss_cacheMisses (ttl : Int) (s : ScryfallState) (id : String)
    (now : Int) (o : FetchOutcome)
    (hmiss : ∀ e, s.cache.lookup id = some e → isCacheValid ttl now e = false) :
    (getCardByIdStep ttl s id now o).2.cacheMisses = s.cacheMisses + 1 := by
  cases hl : s.cache.lookup id with
  | none => simp [getCardByIdStep, hl, getCardByIdMiss_cacheMisses]
  | some e => simp [getCardByIdStep, hl, hmiss e hl, getCardByIdMiss_cacheMisses]

/-- C3: the service TTL is one hour; an entry is valid exactly when
now - fetchedAtMillis < TTL; a lookup finding a valid entry is a hit that
returns the stored data with no dependence on the provider (no network
call), and a lookup finding no valid entry falls through to the fetch path;
concretely, with TTL = 1000 ms an entry stored at t=0 is a hit at t=500 and
a miss at t=1500. -/
theorem c3_cache_freshness :
    cacheTTL = 60 * 60 * 1000
    ∧ (∀ ttl now e, isCacheValid ttl now e = true ↔ now - e.timestamp < ttl)
    ∧ (∀ ttl s id now e o,
        s.cache.lookup id = some e → isCacheValid ttl now e = true →
        getCardByIdStep ttl s id now o
          = (.ok e.data, { s with cacheHits := s.cacheHits + 1 }))
    ∧ (∀ ttl s id now o,
        (∀ e, s.cache.lookup id = some e → isCacheValid ttl now e = false) →
        getCardByIdStep ttl s id now o = getCardByIdMiss ttl s id now o)
    ∧ getCardByIdStep 1000 cacheStateA "A" 500 .unavailable
        = (.ok sampleCardData, { cacheStateA with cacheHits := 1 })
    ∧ (getCardByIdStep 1000 cacheStateA "A" 1500 .notFound).1
        = .error ⟨"Carta não encontrada no Scryfall", 404⟩
    ∧ (getCardByIdStep 1000 cacheStateA "A" 1500 .notFound).2.cacheMisses
        = cacheStateA.cacheMisses + 1 := by
  refine ⟨rfl, ?_, ?_, ?_, rfl, rfl, rfl⟩
  · intro ttl now e
    simp [isCacheValid]
  · intro ttl s id now e o hl hv
    simp [getCardByIdStep, hl, hv]
  · intro ttl s id now o hmiss
    cases hl : s.cache.lookup id with
    | none => simp [getCardByIdStep, hl]
    | some e => simp [getCardByIdStep, hl, hmiss e hl]

/-- Witness for C3: the hit branch at a concrete state, time and id; the
outcome argument is irrelevant on a hit. -/
theorem c3_witness :
    getCardByIdStep 1000 cacheStateA "A" 500 .notFound
      = (.ok sampleCardData, { cacheStateA with cacheHits := cacheStateA.cacheHits + 1 }) :=
  c3_cache_freshness.2.2.1 1000 cacheStateA "A" 500 ⟨sampleCardData, 0⟩ .notFound rfl rfl

/-- C5: a failed provider fetch never writes a cache entry — getCardById on
a failing outcome leaves the cache contents unchanged, and when the call was
a miss the next lookup for the same id at any later time is again a miss
(counted on the miss counter, hence retrying the fetch). -/
theorem c5_failures_not_cached (ttl : Int) (s : ScryfallState) (id : String)
    (now : Int) (o : FetchOutcome) (hfail : ∀ d, o ≠ .success d) :
    (getCardByIdStep ttl s id now o).2.cache = s.cache
    ∧ ((∀ e, s.cache.lookup id = some e → isCacheValid ttl now e = false) →
        ∀ now' o', now ≤ now' →
          (getCardByIdStep ttl (getCardByIdStep ttl s id now o).2 id now' o').2.cacheMisses
            = (getCardByIdStep ttl s id now o).2.cacheMisses + 1) := by
  have hcache : (getCardByIdStep ttl s id now o).2.cache = s.cache := by
    cases hl : s.cache.lookup id with
    | some e =>
      cases hv : isCacheValid ttl now e with
      | true => simp [getCardByIdStep, hl, hv]
      | false =>
        cases o with
        | success d => exact absurd rfl (hfail d)
        | notFound => simp [getCardByIdStep, getCardByIdMiss, hl, hv]
        | unavailable => simp [getCardByIdStep, getCardByIdMiss, hl, hv]
    | none =>
      cases o with
      | success d => exact absurd rfl (hfail d)
      | notFound => simp [getCardByIdStep, getCardByIdMiss, hl]
      | unavailable => simp [getCardByIdStep, getCardByIdMiss, hl]
  refine ⟨hcache, ?_⟩
  intro hmiss now' o' hle
  have hmiss2 : ∀ e, (getCardByIdStep ttl s id now o).2.cache.lookup id = some e →
      isCacheValid ttl now' e = false := by
    intro e he
    rw [hcache] at he
    have h1 := hmiss e he
    simp only [isCacheValid, decide_eq_false_iff_not, decide_eq_true_eq] at h1 ⊢
    omega
  exact step_miss_cacheMisses ttl _ id now' o' hmiss2

/-- Witness for C5: a failing fetch for an expired entry leaves the cache
unchanged and the immediately following lookup is again a miss. -/
theorem c5_witness :
    (getCardByIdStep 1000 cacheStateA "A" 5000 .unavailable).2.cache = cacheStateA.cache
    ∧ (getCardByIdStep 1000 (getCardByIdStep 1000 cacheStateA "A" 5000 .unavailable).2
          "A" 6000 .notFound).2.cacheMisses
        = (getCardByIdStep 1000 cacheStateA "A" 5000 .unavailable).2.cacheMisses + 1 := by
  obtain ⟨h1, h2⟩ :=
    c5_failures_not_cached 1000 cacheStateA "A" 5000 .unavailable
      (fun d h => FetchOutcome.noConfusion h)
  refine ⟨h1, h2 ?_ 6000 .notFound (by decide)⟩
  intro e he
  rw [show cacheStateA.cache.lookup "A" = some ⟨sampleCardData, 0⟩ from rfl] at he
  injection he with h
  subst h
  rfl

/-- C7: on a provider 404, search returns an explicitly empty result set
while getById and getByExactName raise the 404 not-found error; on any other
non-success response or transport failure every operation raises the 500
provider-unavailable error. -/
theorem c7_provider_error_taxonomy :
    searchCards .notFound = .ok { total_cards := 0, has_more := false, data := [] }
    ∧ searchCards .unavailable = .error ⟨"Erro ao buscar cartas no Scryfall", 500⟩
    ∧ (∀ r, searchCards (.success r) = .ok r)
    ∧ getCardByName .notFound = .error ⟨"Carta não encontrada no Scryfall", 404⟩
    ∧ getCardByName .unavailable = .error ⟨"Erro ao buscar carta no Scryfall", 500⟩
    ∧ (∀ ttl s id now, s.cache.lookup id = none →
        (getCardByIdStep ttl s id now .notFound).1
            = .error ⟨"Carta não encontrada no Scryfall", 404⟩
        ∧ (getCardByIdStep ttl s id now .unavailable).1
            = .error ⟨"Erro ao buscar carta no Scryfall", 500⟩) := by
  refine ⟨rfl, rfl, fun r => rfl, rfl, rfl, ?_⟩
  intro ttl s id now hl
  constructor <;> simp [getCardByIdStep, hl, getCardByIdMiss]

/-- Witness for C7 at the empty cache state. -/
theorem c7_witness :
    (getCardByIdStep cacheTTL emptyState "missing" 0 .notFound).1
        = .error ⟨"Carta não encontrada no Scryfall", 404⟩
    ∧ (getCardByIdStep cacheTTL emptyState "missing" 0 .unavailable).1
        = .error ⟨"Erro ao buscar carta no Scryfall", 500⟩ :=
  c7_provider_error_taxonomy.2.2.2.2.2 cacheTTL emptyState "missing" 0 rfl

theorem step_counters (ttl : Int) (s : ScryfallState) (id : String) (now : Int)
    (o : FetchOutcome) :
    ((getCardByIdStep ttl s id now o).2.cacheHits = s.cacheHits + 1
      ∧ (getCardByIdStep ttl s id now o).2.cacheMisses = s.cacheMisses)
    ∨ ((getCardByIdStep ttl s id now o).2.cacheHits = s.cacheHits
      ∧ (getCardByIdStep ttl s id now o).2.cacheMisses = s.cacheMisses + 1) := by
  cases hl : s.cache.lookup id with
  | some e =>
    cases hv : isCacheValid ttl now e with
    | true => left; simp [getCardByIdStep, hl, hv]
    | false => right; cases o <;> simp [getCardByIdStep, getCardByIdMiss, hl, hv]
  | none => right; cases o <;> simp [getCardByIdStep, getCardByIdMiss, hl]

theorem runRequests_counters_mono (ttl : Int)
    (reqs : List (String × Int × FetchOutcome)) :
    ∀ s : ScryfallState,
      s.cacheHits ≤ (runRequests ttl reqs s).cacheHits
      ∧ s.cacheMisses ≤ (runRequests ttl reqs s).cacheMisses := by
  induction reqs with
  | nil => intro s; exact ⟨le_refl _, le_refl _⟩
  | cons r rest ih =>
    intro s
    obtain ⟨id, now, o⟩ := r
    obtain ⟨h2h, h2m⟩ := ih (getCardByIdStep ttl s id now o).2
    simp only [runRequests]
    rcases step_counters ttl s id now o with ⟨h1, h1m⟩ | ⟨h1, h1m⟩ <;>
      exact ⟨by omega, by omega⟩

/-- C9: every getCardById call increments exactly one of the hit and miss
counters by exactly one, the counters never decrease over any sequence of
calls, and getCacheStats reports the current hit count, miss count and
cache entry count. -/
theorem c9_counter_discipline :
    (∀ ttl s id now o,
      ((getCardByIdStep ttl s id now o).2.cacheHits = s.cacheHits + 1
        ∧ (getCardByIdStep ttl s id now o).2.cacheMisses = s.cacheMisses)
      ∨ ((getCardByIdStep ttl s id now o).2.cacheHits = s.cacheHits
        ∧ (getCardByIdStep ttl s id now o).2.cacheMisses = s.cacheMisses + 1))
    ∧ (∀ ttl reqs s, s.cacheHits ≤ (runRequests ttl reqs s).cacheHits
        ∧ s.cacheMisses ≤ (runRequests ttl reqs s).cacheMisses)
    ∧ (∀ s, (getCacheStats s).hits = s.cacheHits
        ∧ (getCacheStats s).misses = s.cacheMisses
        ∧ (getCacheStats s).size = s.cache.length) :=
  ⟨step_counters, fun ttl reqs s => runRequests_counters_mono ttl reqs s,
   fun _ => ⟨rfl, rfl, rfl⟩⟩

/-- C8 counterexample: a getCardById call that takes the miss path with a
failing fetch can bring the miss counter to a multiple of 100 without any
sweep running — an entry older than the TTL survives. Here the counter
reaches 100 and the entry for id B, stored at time 0 and read at time
2·TTL, is still in the cache. -/
theorem c8_sweep_counterexample :
    (scryfallGetCardById cacheStateC "A" (2 * cacheTTL) .notFound).2.cacheMisses % 100 = 0
    ∧ (scryfallGetCardById cacheStateC "A" (2 * cacheTTL) .notFound).2.cache
        = [("B", ⟨sampleCardData, 0⟩)]
    ∧ cacheTTL < 2 * cacheTTL - 0 := by
  exact ⟨rfl, rfl, by decide⟩

/-- C8 as amended: the sweep runs after a cache miss only when that miss's
provider fetch succeeds; in that case, when the new miss count is a multiple
of 100, every entry whose age has reached the TTL is evicted, so every
surviving entry (including the one just stored, whose age is 0) is younger
than the TTL. -/
theorem c8_sweep_after_successful_miss (s : ScryfallState) (id : String)
    (now : Int) (d : ScryfallCard)
    (hmiss : ∀ e, s.cache.lookup id = some e → isCacheValid cacheTTL now e = false)
    (hcount : (s.cacheMisses + 1) % 100 = 0) :
    ∀ p ∈ (scryfallGetCardById s id now (.success d)).2.cache,
      now - p.2.timestamp < cacheTTL := by
  intro p hp
  have hstep : scryfallGetCardById s id now (.success d)
      = getCardByIdMiss cacheTTL s id now (.success d) := by
    unfold scryfallGetCardById
    cases hl : s.cache.lookup id with
    | none => simp [getCardByIdStep, hl]
    | some e => simp [getCardByIdStep, hl, hmiss e hl]
  rw [hstep] at hp
  simp only [getCardByIdMiss, hcount, if_pos] at hp
  simp only [cleanCache, List.mem_filter, Bool.not_eq_true', decide_eq_false_iff_not] at hp
  rcases hp with ⟨-, h2⟩
  omega

/-- Witness for the amended C8: the 100th miss with a successful fetch at
time 2·TTL evicts the expired entry; the surviving stored entry has age 0. -/
theorem c8_sweep_witness : (2 * cacheTTL) - (2 * cacheTTL) < cacheTTL := by
  refine c8_sweep_after_successful_miss cacheStateC "A" (2 * cacheTTL) sampleFoilOnly
      ?_ (by decide) ("A", ⟨sampleFoilOnly, 2 * cacheTTL⟩) ?_
  · intro e he
    rw [show cacheStateC.cache.lookup "A" = none from rfl] at he
    exact Option.noConfusion he
  · rw [show (scryfallGetCardById cacheStateC "A" (2 * cacheTTL)
        (.success sampleFoilOnly)).2.cache
          = [("A", ⟨sampleFoilOnly, 2 * cacheTTL⟩)] from rfl]
    exact List.mem_singleton.mpr rfl

theorem priceOf_eq_spec (d : ScryfallCard) : priceOf d = unitPriceSpec (some d) := by
  cases hp : d.prices with
  | none => simp [priceOf, unitPriceSpec, hp]
  | some p =>
    cases hu : p.usd with
    | some v => simp [priceOf, unitPriceSpec, hp, hu]
    | none =>
      cases hf : p.usd_foil with
      | some v => simp [priceOf, unitPriceSpec, hp, hu, hf]
      | none => simp [priceOf, unitPriceSpec, hp, hu, hf]

theorem cardUnitPrice_eq_spec (cw : CardWithDetails) :
    cardUnitPrice cw = unitPriceSpec cw.scryfall_data := by
  cases h : cw.scryfall_data with
  | none => simp [cardUnitPrice, unitPriceSpec, h]
  | some d => simp [cardUnitPrice, h, priceOf_eq_spec]

theorem cardsTableSortValue_eq_spec (cw : CardWithDetails) :
    cardsTableSortValue cw = unitPriceSpec cw.scryfall_data := by
  cases h : cw.scryfall_data with
  | none => simp [cardsTableSortValue, unitPriceSpec, h]
  | some d => simp [cardsTableSortValue, h, priceOf_eq_spec]

theorem cardsTableDisplayPrice_eq_spec (cw : CardWithDetails) (v : ℚ)
    (h : cardsTableDisplayPrice cw = some v) :
    v = unitPriceSpec cw.scryfall_data := by
  cases hd : cw.scryfall_data with
  | none => simp [cardsTableDisplayPrice, hd] at h
  | some d =>
    cases hp : d.prices with
    | none => simp [cardsTableDisplayPrice, hd, hp] at h
    | some p =>
      cases hu : p.usd with
      | some w =>
        simp [cardsTableDisplayPrice, hd, hp, hu] at h
        subst h
        simp [unitPriceSpec, hd, hp, hu]
      | none =>
        cases hf : p.usd_foil with
        | some w =>
          simp [cardsTableDisplayPrice, hd, hp, hu, hf] at h
          subst h
          simp [unitPriceSpec, hd, hp, hu, hf]
        | none => simp [cardsTableDisplayPrice, hd, hp, hu, hf] at h

theorem backend_total_eq_spec (fetch : Nat → Except AppError ScryfallCard)
    (j : Nat) (rows : List Card) :
    getUserCollectionsTotalValue fetch j rows
      = specTotalValue (enrichAll fetch j rows) := by
  induction rows generalizing j with
  | nil => simp [getUserCollectionsTotalValue, enrichAll, specTotalValue]
  | cons c cs ih =>
    cases hf : fetch j with
    | ok d =>
      simp [getUserCollectionsTotalValue, enrichAll, specTotalValue, hf, enrichCard,
        ih (j + 1), priceOf_eq_spec]
    | error e =>
      simp [getUserCollectionsTotalValue, enrichAll, specTotalValue, hf, enrichCard,
        ih (j + 1), unitPriceSpec]

theorem collectionStats_foldl (l : List CardWithDetails) :
    ∀ a : ℚ,
      l.foldl (fun sum card => sum + cardUnitPrice card * (jsOr card.quantity 1 : ℚ)) a
        = a + (l.map (fun card => cardUnitPrice card * (jsOr card.quantity 1 : ℚ))).sum := by
  induction l with
  | nil => intro a; simp
  | cons c cs ih => intro a; simp [List.foldl_cons, ih, add_assoc]

theorem jsOr_of_ne_zero (n : Nat) (h : n ≠ 0) : jsOr n 1 = n := by
  simp [jsOr, h]

theorem frontend_sum_eq_spec : ∀ cards : List CardWithDetails,
    (∀ c ∈ cards, c.quantity ≠ 0) →
    (cards.map (fun card => cardUnitPrice card * (jsOr card.quantity 1 : ℚ))).sum
      = specTotalValue cards := by
  intro cards
  induction cards with
  | nil => intro h; simp [specTotalValue]
  | cons c cs ih =>
    intro hq
    have hc : c.quantity ≠ 0 := hq c (List.mem_cons_self c cs)
    have hcs : ∀ x ∈ cs, x.quantity ≠ 0 :=
      fun x hx => hq x (List.mem_cons_of_mem c hx)
    have h2 := ih hcs
    simp only [List.map_cons, List.sum_cons, specTotalValue] at h2 ⊢
    rw [jsOr_of_ne_zero _ hc, cardUnitPrice_eq_spec, h2]

theorem mem_enrichAll_quantity (fetch : Nat → Except AppError ScryfallCard) :
    ∀ (j : Nat) (rows : List Card), (∀ c ∈ rows, c.quantity ≠ 0) →
      ∀ cw ∈ enrichAll fetch j rows, cw.quantity ≠ 0 := by
  intro j rows
  induction rows generalizing j with
  | nil => intro _ cw h; simp [enrichAll] at h
  | cons c cs ih =>
    intro hq cw hcw
    simp only [enrichAll, List.mem_cons] at hcw
    rcases hcw with rfl | hcw
    · rw [enrichCard_quantity]
      exact hq c (List.mem_cons_self c cs)
    · exact ih (j + 1) (fun x hx => hq x (List.mem_cons_of_mem c hx)) cw hcw

/-- C4: for every fetch oracle and every row list with positive quantities,
the backend total of getUserCollections and the frontend total of the
collectionStats memo both equal the specification sum of unit price times
quantity, where the unit price prefers the usd price, falls back to the
usd_foil price and is 0 when both are absent or enrichment failed; the
CardsTable sort key and displayed price apply the same precedence. -/
theorem c4_valuation_precedence (fetch : Nat → Except AppError ScryfallCard)
    (rows : List Card) (hq : ∀ c ∈ rows, c.quantity ≠ 0) :
    getUserCollectionsTotalValue fetch 0 rows
        = specTotalValue (getCollectionCards fetch rows)
    ∧ collectionStatsTotalValue (getCollectionCards fetch rows)
        = specTotalValue (getCollectionCards fetch rows)
    ∧ (∀ cw : CardWithDetails, cardUnitPrice cw = unitPriceSpec cw.scryfall_data)
    ∧ (∀ cw : CardWithDetails, cardsTableSortValue cw = unitPriceSpec cw.scryfall_data)
    ∧ (∀ (cw : CardWithDetails) (v : ℚ),
        cardsTableDisplayPrice cw = some v → v = unitPriceSpec cw.scryfall_data)
    ∧ (∀ cw : CardWithDetails, cw.scryfall_data = none → cardUnitPrice cw = 0) := by
  refine ⟨backend_total_eq_spec fetch 0 rows, ?_, cardUnitPrice_eq_spec,
    cardsTableSortValue_eq_spec, cardsTableDisplayPrice_eq_spec,
    fun cw h => by simp [cardUnitPrice, h]⟩
  have hq2 := mem_enrichAll_quantity fetch 0 rows hq
  simp only [getCollectionCards, collectionStatsTotalValue] at hq2 ⊢
  rw [collectionStats_foldl, zero_add]
  exact frontend_sum_eq_spec _ hq2

/-- Witness for C4 at a concrete three-row collection: a card with both
prices, a card with only a foil price, and a card whose fetch fails. -/
theorem c4_witness :
    getUserCollectionsTotalValue sampleFetch4 0 [sampleRow, sampleRow2, sampleRow3]
      = specTotalValue (getCollectionCards sampleFetch4 [sampleRow, sampleRow2, sampleRow3])
    ∧ collectionStatsTotalValue
          (getCollectionCards sampleFetch4 [sampleRow, sampleRow2, sampleRow3])
      = specTotalValue (getCollectionCards sampleFetch4 [sampleRow, sampleRow2, sampleRow3]) := by
  obtain ⟨h1, h2, -⟩ :=
    c4_valuation_precedence sampleFetch4 [sampleRow, sampleRow2, sampleRow3] (by decide)
  exact ⟨h1, h2⟩

theorem importListGo_spec (lookup : Nat → Except AppError ScryfallCard)
    (collectionId owner : String) :
    ∀ (j : Nat) (entries : List ImportEntry),
      importListGo lookup collectionId owner j entries
        = ((idxFrom j entries).filterMap (fun p =>
             match lookup p.1 with
             | .ok d => some (importRecord collectionId owner p.2 d)
             | .error _ => none),
           (idxFrom j entries).filterMap (fun p =>
             match lookup p.1 with
             | .ok _ => none
             | .error err => some ⟨p.2.name, err.message⟩)) := by
  intro j entries
  induction entries generalizing j with
  | nil => rfl
  | cons e es ih =>
    cases hf : lookup j with
    | ok d =>
      simp [importListGo, idxFrom, hf, ih (j + 1), List.filterMap_cons]
    | error err =>
      simp [importListGo, idxFrom, hf, ih (j + 1), List.filterMap_cons]

/-- C6: the whole entry list is processed (the resolver is a total function,
so the call never raises); its output is characterised entry by entry: an
entry whose exact-name lookup succeeds contributes exactly its new local
record to the imported list, an entry whose lookup fails contributes exactly
one name-and-reason item to the failed list, and each entry's contribution
depends only on that entry and its own lookup outcome, so one entry's
failure cannot affect any other entry's outcome. -/
theorem c6_importList_partition (lookup : Nat → Except AppError ScryfallCard)
    (entries : List ImportEntry) (collectionId owner : String) :
    (importList lookup entries collectionId owner).1
      = (idxFrom 0 entries).filterMap (fun p =>
          match lookup p.1 with
          | .ok d => some (importRecord collectionId owner p.2 d)
          | .error _ => none)
    ∧ (importList lookup entries collectionId owner).2
      = (idxFrom 0 entries).filterMap (fun p =>
          match lookup p.1 with
          | .ok _ => none
          | .error err => some ⟨p.2.name, err.message⟩) := by
  rw [importList, importListGo_spec lookup collectionId owner 0 entries]
  exact ⟨rfl, rfl⟩

/-- C10: addCard verifies the card against the provider before the INSERT;
a failing lookup propagates its error and leaves the stored rows unchanged,
and a successful lookup appends exactly the provider-verified row. -/
theorem c10_addCard_atomic (fetch : Except AppError ScryfallCard) (db : List Card)
    (collectionId : String) (req : AddCardRequest) (newId : String) (now : Int) :
    (∀ err, fetch = .error err →
       addCard (.ok ()) fetch db collectionId req newId now = (.error err, db))
    ∧ (∀ d, fetch = .ok d →
       addCard (.ok ()) fetch db collectionId req newId now
         = (.ok { toCard := mkInsertedCard newId collectionId now req d,
                  scryfall_data := some d },
            db ++ [mkInsertedCard newId collectionId now req d])) := by
  constructor
  · intro err h
    subst h
    rfl
  · intro d h
    subst h
    rfl

/-- Witness for C10: a 404 lookup on a concrete request leaves the one-row
table unchanged and surfaces the 404. -/
theorem c10_witness :
    addCard (.ok ()) (.error ⟨"Carta não encontrada no Scryfall", 404⟩) [sampleRow]
        "col1"
        { scryfall_id := "sc9", owner_name := "Alice", current_deck := none,
          is_borrowed := none, quantity := some 2, set_code := none, set_name := none }
        "c9" 0
      = (.error ⟨"Carta não encontrada no Scryfall", 404⟩, [sampleRow]) :=
  (c10_addCard_atomic (.error ⟨"Carta não encontrada no Scryfall", 404⟩) [sampleRow]
      "col1"
      { scryfall_id := "sc9", owner_name := "Alice", current_deck := none,
        is_borrowed := none, quantity := some 2, set_code := none, set_name := none }
      "c9" 0).1 _ rfl
